import Mathlib

/-!
# Verification of the bid-buddy email-processing core

A shallow embedding, in Lean 4, of the decision core of the bid-buddy
repository: the filename/trade parsing grammar
(`app/utils/filename_parser.py`, `app/utils/qsr_trades.py`), the
fuzzy folder matcher and drive renaming policy
(`app/utils/google_drive.py`), and the classification node, JSON-retry
helper and routing function of the workflow (`app/agent.py`).

Python strings are modelled as Lean `String`s (the inputs of interest are
ASCII), Python `None`/missing values as `Option`/empty strings following
each call site's truthiness test, raised exceptions as the `Except.error`
branch of an `Except` result, and external collaborators (mailbox fetch,
LLM completion, Drive listing) as explicit oracle arguments.
-/

set_option autoImplicit false

namespace BidBuddy

/-! ## Python string primitives used by the source -/

/-- Python whitespace for `str.strip` (space, tab, newline, CR, VT, FF). -/
def pyWhitespace (c : Char) : Bool :=
  c = ' ' || c = '\t' || c = '\n' || c = '\r' || c.toNat = 11 || c.toNat = 12

/-- Python `s.strip()`: remove whitespace from both ends. -/
def pyStrip (s : String) : String :=
  String.mk (((s.toList.dropWhile pyWhitespace).reverse.dropWhile pyWhitespace).reverse)

/-- Python `s.lower()` (ASCII fragment), implemented structurally on the
character list so that proofs can evaluate it. -/
def pyLower (s : String) : String :=
  String.mk (s.toList.map Char.toLower)

/-- Does the character list start with the given needle? -/
def listStartsWith : List Char → List Char → Bool
  | [], _ => true
  | _ :: _, [] => false
  | a :: as, b :: bs => a = b && listStartsWith as bs

/-- Fuel-driven worker for Python `s.split(sep)` with a non-empty separator:
scan left to right, cutting at each separator occurrence. -/
def splitSepGo (sep : List Char) : Nat → List Char → List Char → List (List Char)
  | 0, _, cur => [cur.reverse]
  | fuel + 1, cs, cur =>
    match cs with
    | [] => [cur.reverse]
    | c :: rest =>
      if listStartsWith sep cs then
        cur.reverse :: splitSepGo sep fuel (cs.drop sep.length) []
      else
        splitSepGo sep fuel rest (c :: cur)

/-- Python `s.split(sep)` for a non-empty separator string. -/
def pySplitOn (sep : String) (s : String) : List String :=
  (splitSepGo sep.toList (s.toList.length + 1) s.toList []).map String.mk

/-- Python `s.rstrip(chars)`: remove any of the given characters from the right end. -/
def pyRstripSet (cset : List Char) (s : String) : String :=
  String.mk ((s.toList.reverse.dropWhile (fun c => cset.contains c)).reverse)

/-- Character-level worker for Python `str.title`: an alphabetic character is
upper-cased when the previous character was not alphabetic, lower-cased
otherwise (ASCII fragment of CPython semantics). -/
def pyTitleGo : List Char → Bool → List Char
  | [], _ => []
  | c :: cs, prevAlpha =>
    (if c.isAlpha then (if prevAlpha then c.toLower else c.toUpper) else c)
      :: pyTitleGo cs c.isAlpha

/-- Python `s.title()`. -/
def pyTitle (s : String) : String :=
  String.mk (pyTitleGo s.toList false)

/-- Python `filename.rsplit(sep, 1)[0]` for a single-character separator:
everything before the last occurrence, or the whole string when absent. -/
def rsplitOnceHead (sep : Char) (s : String) : String :=
  let cs := s.toList
  if cs.contains sep then
    String.mk (((cs.reverse.dropWhile (fun c => c ≠ sep)).drop 1).reverse)
  else s

/-- Python `s.split(sep, 1)` for a single-character separator, as an optional
pair: `none` models the one-element result (separator absent). -/
def splitOnce (sep : Char) (s : String) : Option (String × String) :=
  let cs := s.toList
  if cs.contains sep then
    some (String.mk (cs.takeWhile (fun c => c ≠ sep)),
          String.mk ((cs.dropWhile (fun c => c ≠ sep)).drop 1))
  else none

/-- ASCII apostrophe, used literally inside several source error messages. -/
def apos : String := String.singleton (Char.ofNat 39)

/-! ## `app/utils/qsr_trades.py` — the trade alias table

`TRADE_ALIASES` transcribed in source order (the source dict literal repeats
the key `tpo` with the same value; Python keeps the last binding, and
`List.lookup` the first — both yield `"TPO"`). -/

def TRADE_ALIASES : List (String × String) := [
  ("bathrooms", "Bathrooms"),
  ("bath", "Bathrooms"),
  ("canopies", "Canopies"),
  ("canopy", "Canopies"),
  ("caulking", "Caulking"),
  ("sealant & caulking", "Caulking"),
  ("sealant", "Caulking"),
  ("concrete", "Concrete"),
  ("doors & windows", "Doors & Windows"),
  ("doors", "Doors & Windows"),
  ("windows", "Doors & Windows"),
  ("door and window", "Doors & Windows"),
  ("drywall", "Drywall"),
  ("dumpster service", "Dumpster Service"),
  ("dumpster", "Dumpster Service"),
  ("trash service", "Dumpster Service"),
  ("dumpster services", "Dumpster Service"),
  ("earthwork", "Earthwork"),
  ("earthwork building", "Earthwork"),
  ("excavation", "Excavation"),
  ("final cleaning", "Final Cleaning"),
  ("post construction cleanup", "Final Cleaning"),
  ("post construction cleaning", "Final Cleaning"),
  ("cleaning", "Final Cleaning"),
  ("cleanup", "Final Cleaning"),
  ("cleanup services", "Final Cleaning"),
  ("cleanup service", "Final Cleaning"),
  ("flooring", "Flooring"),
  ("framing", "Framing"),
  ("framing & carpentry", "Framing"),
  ("carpentry", "Framing"),
  ("glasswork", "Glasswork"),
  ("landscaping", "Landscaping"),
  ("landscape", "Landscaping"),
  ("low voltage", "Low Voltage"),
  ("masonry", "Masonry"),
  ("mechanical", "Mechanical"),
  ("metals", "Metals"),
  ("misc steel", "Steel"),
  ("steel (misc)", "Steel"),
  ("painting", "Painting"),
  ("plumbing", "Plumbing"),
  ("roofing", "Roofing"),
  ("tpo", "TPO"),
  ("steel", "Steel"),
  ("storefront", "Storefront"),
  ("striping", "Striping"),
  ("striping & marking", "Striping"),
  ("swppp", "SWPPP"),
  ("swpp", "SWPPP"),
  ("tab", "TAB"),
  ("test and balance", "TAB"),
  ("testing and balancing", "TAB"),
  ("toilet accessories", "Toilet Accessories"),
  ("tpo", "TPO"),
  ("trusses", "Trusses"),
  ("utilities", "Utilities"),
  ("welding", "Welding")
]

/-! ## `app/utils/filename_parser.py` -/

/-- `normalize_trade_name`: lower-case and strip for alias lookup; on a miss,
return the stripped original in title case. -/
def normalize_trade_name (trade_name : String) : String :=
  let normalized := pyStrip (pyLower trade_name)
  match TRADE_ALIASES.lookup normalized with
  | some canon => canon
  | none => pyTitle (pyStrip trade_name)

/-- Result record of `parse_filename` (the Python dict with keys
`trades`, `company_name`, `raw_trades`, `error`; `None` as `none`). -/
structure ParsedFilename where
  trades : List String
  company_name : Option String
  raw_trades : Option String
  error : Option String
deriving Repr, DecidableEq

/-- The `"Missing delimiter ..."` error message of `parse_filename`. -/
def missingDelimiterMsg (filename : String) : String :=
  "Missing delimiter " ++ apos ++ "_" ++ apos ++ " in filename. Expected format "
    ++ apos ++ "\x7btrade\x7d_\x7bcompany\x7d" ++ apos ++ ", got: " ++ filename

/-- The `"Could not parse any trades ..."` error message of `parse_filename`. -/
def noTradesMsg (filename : String) : String :=
  "Could not parse any trades from: " ++ filename

/-- The `"Could not parse company name ..."` error message of `parse_filename`. -/
def noCompanyMsg (filename : String) : String :=
  "Could not parse company name from: " ++ filename

/-- The trailing-`&` cleanup of the trade segment:
`for trailing in [' &', '&']: trade_part = trade_part.rstrip(trailing).strip()`. -/
def cleanTradePart (trade_part : String) : String :=
  pyStrip (pyRstripSet ['&'] (pyStrip (pyRstripSet [' ', '&'] trade_part)))

/-- The normalized trade tokens produced, in order, by the nested loops of
`parse_filename`: split the cleaned trade segment on `", "`; a section
containing `&` is split further on `&`, and every part is normalized. -/
def tokensOfTradePart (tp : String) : List String :=
  (pySplitOn ", " tp).flatMap (fun sect =>
    if sect.toList.contains '&' then (pySplitOn "&" sect).map normalize_trade_name
    else [normalize_trade_name sect])

/-- The `trades` accumulation of `parse_filename`: append each normalized
token that is non-empty and not already present
(`if normalized and normalized not in trades: trades.append(normalized)`). -/
def collectTrades (tokens : List String) : List String :=
  tokens.foldl (fun acc x => if x != "" && !(acc.contains x) then acc ++ [x] else acc) []

/-- `parse_filename`: strip the extension, split once on `_`, parse the trade
segment into normalized de-duplicated trades, record errors in the `error`
field (the company-name check runs last and overwrites the trades error). -/
def parse_filename (filename : String) : ParsedFilename :=
  let name_without_ext := pyStrip (rsplitOnceHead '.' filename)
  match splitOnce '_' name_without_ext with
  | none =>
    { trades := [], company_name := none, raw_trades := none,
      error := some (missingDelimiterMsg filename) }
  | some (p0, p1) =>
    let trade_part := pyStrip p0
    let company_part := pyStrip p1
    let trades := collectTrades (tokensOfTradePart (cleanTradePart trade_part))
    let tradesError : Option String :=
      if trades.isEmpty then some (noTradesMsg filename) else none
    let finalError : Option String :=
      if company_part = "" then some (noCompanyMsg filename) else tradesError
    { trades := trades, company_name := some company_part,
      raw_trades := some trade_part, error := finalError }

/-- All normalized trade tokens a filename yields before de-duplication
(empty when the `_` delimiter is missing). -/
def tradeTokens (filename : String) : List String :=
  let name_without_ext := pyStrip (rsplitOnceHead '.' filename)
  match splitOnce '_' name_without_ext with
  | none => []
  | some (p0, _) => tokensOfTradePart (cleanTradePart (pyStrip p0))

/-! ## Specification-side list combinator for the de-duplication contract

`dedupFirstSpec` is written from the spec's words — "order of first
occurrence, de-duplicated" — to be compared with the accumulation loop the
source actually runs (`collectTrades`). -/

/-- Keep the first occurrence of every element, preserving order. -/
def dedupFirstSpec : List String → List String
  | [] => []
  | x :: l => x :: dedupFirstSpec (l.filter (fun y => y ≠ x))
termination_by l => l.length
decreasing_by
  simp only [List.length_cons]
  exact Nat.lt_succ_of_le (List.length_filter_le _ _)

theorem mem_of_mem_dedupFirstSpec {y : String} :
    ∀ {l : List String}, y ∈ dedupFirstSpec l → y ∈ l := by
  intro l
  induction l using dedupFirstSpec.induct with
  | case1 => intro h; simp [dedupFirstSpec] at h
  | case2 x l ih =>
    intro h
    rw [dedupFirstSpec] at h
    rcases List.mem_cons.mp h with h | h
    · subst h; exact List.mem_cons_self _ _
    · exact List.mem_cons_of_mem _ (List.mem_of_mem_filter (ih h))

theorem nodup_dedupFirstSpec : ∀ (l : List String), (dedupFirstSpec l).Nodup := by
  intro l
  induction l using dedupFirstSpec.induct with
  | case1 => simp [dedupFirstSpec]
  | case2 x l ih =>
    rw [dedupFirstSpec]
    refine List.nodup_cons.mpr ⟨fun hx => ?_, ih⟩
    have := List.of_mem_filter (mem_of_mem_dedupFirstSpec hx)
    simp at this

/-- The source's trades-accumulation loop, started from any accumulator,
computes the accumulator followed by the first-occurrence de-duplication of
the tokens that are non-empty and not already accumulated. -/
theorem collectTrades_go (l : List String) : ∀ (acc : List String),
    l.foldl (fun acc x => if x != "" && !(acc.contains x) then acc ++ [x] else acc) acc
      = acc ++ dedupFirstSpec (l.filter (fun y => y != "" && !(acc.contains y))) := by
  induction l with
  | nil => intro acc; simp [dedupFirstSpec]
  | cons x l ih =>
    intro acc
    rw [List.foldl_cons]
    by_cases hx : (x != "" && !(acc.contains x)) = true
    · rw [if_pos hx, ih (acc ++ [x])]
      have hfilter : l.filter (fun y => y != "" && !((acc ++ [x]).contains y))
          = (l.filter (fun y => y != "" && !(acc.contains y))).filter (fun y => y ≠ x) := by
        rw [List.filter_filter]
        apply List.filter_congr
        intro y _
        by_cases h2 : y = x <;> by_cases h1 : y ∈ acc <;>
          simp [h1, h2, bne]
      rw [hfilter, List.filter_cons, if_pos hx, dedupFirstSpec]
      simp
    · rw [if_neg hx, ih acc]
      congr 1
      rw [List.filter_cons, if_neg hx]

/-- `collectTrades` is exactly first-occurrence de-duplication of the
non-empty tokens. -/
theorem collectTrades_eq_dedupFirstSpec (tokens : List String) :
    collectTrades tokens = dedupFirstSpec (tokens.filter (fun y => y != "")) := by
  rw [collectTrades, collectTrades_go]
  simp only [List.nil_append]
  congr 1
  apply List.filter_congr
  intro y _
  simp [List.contains_nil]

/-- The `trades` field of any parse is the first-occurrence de-duplication of
the non-empty normalized tokens of the filename. -/
theorem parse_filename_trades_eq (filename : String) :
    (parse_filename filename).trades
      = dedupFirstSpec ((tradeTokens filename).filter (fun y => y != "")) := by
  rw [parse_filename, tradeTokens]
  cases h : splitOnce '_' (pyStrip (rsplitOnceHead '.' filename)) with
  | none => simp [dedupFirstSpec]
  | some p => cases p with
    | mk p0 p1 => simp [collectTrades_eq_dedupFirstSpec]

/-- **C3**: `parse_filename "concrete_AcmeCo.pdf"` returns trades
`["Concrete"]` and company `"AcmeCo"` with no error;
`parse_filename "concrete, framing, & electrical_AcmeCo.pdf"` returns trades
`["Concrete", "Framing", "Electrical"]` and company `"AcmeCo"`;
`parse_filename "concreteframing.pdf"` (no underscore) returns an error and an
empty trades list; and in every parse the trades list is the
order-of-first-occurrence de-duplication of the normalized trade tokens
(hence duplicate-free). -/
theorem C3_parse_filename_roundtrip :
    ((parse_filename "concrete_AcmeCo.pdf").trades = ["Concrete"]
      ∧ (parse_filename "concrete_AcmeCo.pdf").company_name = some "AcmeCo"
      ∧ (parse_filename "concrete_AcmeCo.pdf").error = none)
    ∧ ((parse_filename "concrete, framing, & electrical_AcmeCo.pdf").trades
          = ["Concrete", "Framing", "Electrical"]
      ∧ (parse_filename "concrete, framing, & electrical_AcmeCo.pdf").company_name
          = some "AcmeCo"
      ∧ (parse_filename "concrete, framing, & electrical_AcmeCo.pdf").error = none)
    ∧ ((parse_filename "concreteframing.pdf").error.isSome = true
      ∧ (parse_filename "concreteframing.pdf").trades = [])
    ∧ (∀ filename : String,
        (parse_filename filename).trades
            = dedupFirstSpec ((tradeTokens filename).filter (fun y => y != ""))
        ∧ (parse_filename filename).trades.Nodup) :=
  ⟨⟨rfl, rfl, rfl⟩, ⟨rfl, rfl, rfl⟩, ⟨rfl, rfl⟩,
   fun filename =>
    ⟨parse_filename_trades_eq filename,
     by rw [parse_filename_trades_eq]; exact nodup_dedupFirstSpec _⟩⟩

/-- **C8**: `"concrete framing_company.pdf"` — a trade segment with a space
but no recognized multi-trade delimiter — parses as the single trade
`"Concrete Framing"` with company `"company"` and no error, rather than
failing as the source comment `"Should fail - no delimiter"` suggests. -/
theorem C8_space_separated_trade_parses :
    parse_filename "concrete framing_company.pdf"
      = { trades := ["Concrete Framing"], company_name := some "company",
          raw_trades := some "concrete framing", error := none } := rfl

/-- The values of the alias table that are single words (no space). -/
def canonicalSingleWordAliasValues : List String :=
  (TRADE_ALIASES.map Prod.snd).filter (fun v => !(v.toList.contains ' '))

/-- **C9**: the trade normalizer is idempotent on the canonical vocabulary:
every single-word value of the alias table is a fixed point of
`normalize_trade_name`, so normalizing twice equals normalizing once. -/
theorem C9_normalizer_idempotent_on_single_word_canon :
    ∀ x ∈ canonicalSingleWordAliasValues,
      normalize_trade_name x = x
      ∧ normalize_trade_name (normalize_trade_name x) = normalize_trade_name x := by
  decide

/-- Witness for C9 at the concrete canonical trade `"Concrete"`. -/
theorem C9_witness :
    normalize_trade_name "Concrete" = "Concrete"
    ∧ normalize_trade_name (normalize_trade_name "Concrete")
        = normalize_trade_name "Concrete" :=
  C9_normalizer_idempotent_on_single_word_canon "Concrete" (by decide)

/-! ## `app/utils/google_drive.py` — folder matcher

`difflib.SequenceMatcher(None, a, b).ratio()` is the Ratcliff/Obershelp
ratio `2 * M / (len a + len b)` where `M` totals the recursive
longest-matching-block decomposition; it is modelled here over exact
rationals (CPython computes a float; for the short folder names involved the
comparisons against `0.5`/`0.8` and between folders agree) and without the
autojunk heuristic, which only activates for strings of 200+ characters. -/

/-- Length of the common prefix of two character lists. -/
def commonPrefLen : List Char → List Char → Nat
  | a :: as, b :: bs => if a = b then commonPrefLen as bs + 1 else 0
  | _, _ => 0

/-- The longest matching block `(i, j, size)` of two character lists,
earliest `i` then earliest `j` on ties, as in `find_longest_match`. -/
def bestBlock (a b : List Char) : Nat × Nat × Nat :=
  (List.range a.length).foldl (fun best i =>
    (List.range b.length).foldl (fun best j =>
      let k := commonPrefLen (a.drop i) (b.drop j)
      if k > best.2.2 then (i, j, k) else best) best) (0, 0, 0)

/-- Total matched characters of the recursive longest-matching-block
decomposition (the `M` of `SequenceMatcher.ratio`); the fuel argument only
bounds the recursion depth and is chosen large enough at the call site. -/
def matchesTotal : Nat → List Char → List Char → Nat
  | 0, _, _ => 0
  | fuel + 1, a, b =>
    let t := bestBlock a b
    if t.2.2 = 0 then 0
    else
      matchesTotal fuel (a.take t.1) (b.take t.2.1) + t.2.2
        + matchesTotal fuel (a.drop (t.1 + t.2.2)) (b.drop (t.2.1 + t.2.2))

/-- `SequenceMatcher(None, a, b).ratio()` over exact rationals
(`2 * M / T` written as `mkRat (2 * M) T` so the kernel can evaluate it,
and `1` when both strings are empty). -/
def ratioOf (a b : List Char) : ℚ :=
  if a.length + b.length = 0 then 1
  else mkRat (2 * (matchesTotal (a.length + b.length + 1) a b)) (a.length + b.length)

/-- Python substring membership `needle in hay`. -/
def containsSub (needle hay : List Char) : Bool :=
  (List.range (hay.length + 1)).any (fun k => listStartsWith needle (hay.drop k))

/-- A Drive folder candidate `{id, name}`. -/
structure DriveFolder where
  id : String
  name : String
deriving Repr, DecidableEq

/-- Per-folder score of `find_best_matching_folder`: similarity ratio of the
lower-cased, stripped names, floored at `0.8` when one normalized string
contains the other. -/
def folderScore (project_name folder_name : String) : ℚ :=
  let normalized_project := pyStrip (pyLower project_name)
  let normalized_folder := pyStrip (pyLower folder_name)
  let score := ratioOf normalized_project.toList normalized_folder.toList
  if containsSub normalized_project.toList normalized_folder.toList
      || containsSub normalized_folder.toList normalized_project.toList then
    max score (mkRat 4 5)
  else score

/-- The best-match accumulation loop of `find_best_matching_folder`
(`if score > best_score: best_score, best_match = score, folder`). -/
def selGo (project_name : String) (folders : List DriveFolder)
    (init : Option DriveFolder × ℚ) : Option DriveFolder × ℚ :=
  folders.foldl (fun best folder =>
    if folderScore project_name folder.name > best.2
    then (some folder, folderScore project_name folder.name)
    else best) init

/-- The selection core of `find_best_matching_folder` once the folder list
has been retrieved: empty list yields no match, otherwise the best-scoring
folder provided its score reaches the `0.5` threshold. -/
def find_best_in_list (folders : List DriveFolder) (project_name : String) :
    Option DriveFolder :=
  if folders.isEmpty then none
  else
    let r := selGo project_name folders (none, 0)
    if r.2 ≥ mkRat 1 2 then r.1 else none

/-- `find_best_matching_folder` with the folder-listing call modelled as an
oracle: the whole body sits inside `try ... except Exception: return None`
(source lines 258 and 325-327), so a failed listing produces the normal
value `None`, not a propagated exception. -/
def find_best_matching_folder (listing : Except String (List DriveFolder))
    (project_name : String) : Except String (Option DriveFolder) :=
  match listing with
  | Except.error _ => Except.ok none
  | Except.ok folders => Except.ok (find_best_in_list folders project_name)

/-- Characterization of the best-match loop: starting from accumulator
`(b, s)` it either returns the accumulator unchanged (when no folder scores
strictly above `s`) or returns the first folder of maximal score among those
scoring strictly above `s`. -/
theorem selGo_spec (p : String) :
    ∀ (l : List DriveFolder) (b : Option DriveFolder) (s : ℚ),
      (selGo p l (b, s) = (b, s) ∧ ∀ g ∈ l, folderScore p g.name ≤ s)
      ∨ (∃ i, ∃ hi : i < l.length,
          (selGo p l (b, s)).1 = some (l.get ⟨i, hi⟩)
          ∧ (selGo p l (b, s)).2 = folderScore p (l.get ⟨i, hi⟩).name
          ∧ s < folderScore p (l.get ⟨i, hi⟩).name
          ∧ (∀ g ∈ l.take i, folderScore p g.name < folderScore p (l.get ⟨i, hi⟩).name)
          ∧ (∀ g ∈ l.drop (i + 1),
              folderScore p g.name ≤ folderScore p (l.get ⟨i, hi⟩).name)) := by
  intro l
  induction l with
  | nil => intro b s; left; exact ⟨rfl, by simp⟩
  | cons x l ih =>
    intro b s
    have hstep : ∀ init : Option DriveFolder × ℚ, selGo p (x :: l) init
        = selGo p l (if folderScore p x.name > init.2
            then (some x, folderScore p x.name) else init) := by
      intro init; rw [selGo, selGo, List.foldl_cons]
    by_cases hx : folderScore p x.name > s
    · rw [hstep (b, s)]
      simp only [if_pos hx]
      rcases ih (some x) (folderScore p x.name) with ⟨heq, hall⟩ | ⟨i, hi, h1, h2, h3, h4, h5⟩
      · right
        refine ⟨0, by simp, ?_, ?_, hx, by simp, ?_⟩
        · rw [heq]; rfl
        · rw [heq]; rfl
        · intro g hg
          simp only [List.drop_succ_cons, List.drop_zero] at hg
          exact hall g hg
      · right
        refine ⟨i + 1, Nat.succ_lt_succ hi, ?_, ?_, ?_, ?_, ?_⟩
        · rw [List.get_cons_succ]; exact h1
        · rw [List.get_cons_succ]; exact h2
        · rw [List.get_cons_succ]; exact lt_trans hx h3
        · rw [List.get_cons_succ]
          intro g hg
          rw [List.take_succ_cons] at hg
          rcases List.mem_cons.mp hg with hg | hg
          · subst hg; exact h3
          · exact h4 g hg
        · rw [List.get_cons_succ]
          intro g hg
          rw [List.drop_succ_cons] at hg
          exact h5 g hg
    · rw [hstep (b, s)]
      simp only [if_neg hx]
      rcases ih b s with ⟨heq, hall⟩ | ⟨i, hi, h1, h2, h3, h4, h5⟩
      · left
        refine ⟨heq, ?_⟩
        intro g hg
        rcases List.mem_cons.mp hg with hg | hg
        · subst hg; exact not_lt.mp hx
        · exact hall g hg
      · right
        refine ⟨i + 1, Nat.succ_lt_succ hi, ?_, ?_, ?_, ?_, ?_⟩
        · rw [List.get_cons_succ]; exact h1
        · rw [List.get_cons_succ]; exact h2
        · rw [List.get_cons_succ]; exact h3
        · rw [List.get_cons_succ]
          intro g hg
          rw [List.take_succ_cons] at hg
          rcases List.mem_cons.mp hg with hg | hg
          · subst hg; exact lt_of_le_of_lt (not_lt.mp hx) h3
          · exact h4 g hg
        · rw [List.get_cons_succ]
          intro g hg
          rw [List.drop_succ_cons] at hg
          exact h5 g hg

/-- **C4**: the folder matcher scores each candidate on the lower-cased,
trimmed strings, floors the score at `0.8` when one normalized string
contains the other, returns the maximum-scoring folder only when its score
is at least `0.5` (else no match), and breaks ties in favour of the
first-encountered folder in listing order. -/
theorem C4_folder_matcher_selection :
    (∀ (p n : String),
      (containsSub (pyStrip (pyLower p)).toList (pyStrip (pyLower n)).toList
        || containsSub (pyStrip (pyLower n)).toList (pyStrip (pyLower p)).toList) = true
      → folderScore p n ≥ 4 / 5)
    ∧ (∀ (p : String) (folders : List DriveFolder) (f : DriveFolder),
        find_best_in_list folders p = some f
        → ∃ i, ∃ hi : i < folders.length,
            f = folders.get ⟨i, hi⟩
            ∧ folderScore p f.name ≥ 1 / 2
            ∧ (∀ g ∈ folders, folderScore p g.name ≤ folderScore p f.name)
            ∧ (∀ g ∈ folders.take i, folderScore p g.name < folderScore p f.name))
    ∧ (∀ (p : String) (folders : List DriveFolder),
        (∀ g ∈ folders, folderScore p g.name < 1 / 2)
        → find_best_in_list folders p = none) := by
  have hbr45 : (mkRat 4 5 : ℚ) = 4 / 5 := by rw [Rat.mkRat_eq_div]; norm_num
  have hbr12 : (mkRat 1 2 : ℚ) = 1 / 2 := by rw [Rat.mkRat_eq_div]; norm_num
  refine ⟨?_, ?_, ?_⟩
  · intro p n hcond
    rw [folderScore]
    rw [if_pos hcond, ← hbr45]
    exact le_max_right _ _
  · intro p folders f h
    rw [find_best_in_list] at h
    by_cases hemp : folders.isEmpty
    · rw [if_pos hemp] at h; exact absurd h (by simp)
    · rw [if_neg hemp] at h
      simp only [] at h
      by_cases hth : (selGo p folders (none, 0)).2 ≥ mkRat 1 2
      · rw [if_pos hth] at h
        rcases selGo_spec p folders none 0 with ⟨heq, _⟩ | ⟨i, hi, h1, h2, h3, h4, h5⟩
        · rw [heq] at h; exact absurd h (by simp)
        · rw [h1] at h
          have hf : f = folders.get ⟨i, hi⟩ := (Option.some.inj h).symm
          refine ⟨i, hi, hf, ?_, ?_, ?_⟩
          · rw [h2] at hth; rw [hf, ← hbr12]; exact hth
          · intro g hg
            rw [hf]
            have hsplit := List.take_append_drop i folders
            rw [← hsplit] at hg
            rcases List.mem_append.mp hg with hg1 | hg2
            · exact le_of_lt (h4 g hg1)
            · rw [List.drop_eq_getElem_cons hi] at hg2
              rcases List.mem_cons.mp hg2 with hg2 | hg2
              · rw [hg2]; simp
              · exact h5 g hg2
          · intro g hg
            rw [hf]
            exact h4 g hg
      · rw [if_neg hth] at h; exact absurd h (by simp)
  · intro p folders hall
    rw [find_best_in_list]
    by_cases hemp : folders.isEmpty
    · rw [if_pos hemp]
    · rw [if_neg hemp]
      simp only []
      have hlt : (selGo p folders (none, 0)).2 < mkRat 1 2 := by
        rw [hbr12]
        rcases selGo_spec p folders none 0 with ⟨heq, _⟩ | ⟨i, hi, _, h2, _, _, _⟩
        · rw [heq]; norm_num
        · rw [h2]
          exact hall _ (List.get_mem folders i hi)
      rw [if_neg (not_le.mpr hlt)]

/-- Witness for C4: on the one-folder list `[{id := "1", name := "ab"}]` and
project `"ab"` the matcher selects that folder, and the theorem yields its
score bound. -/
theorem C4_witness : folderScore "ab" "ab" ≥ 1 / 2 := by
  obtain ⟨i, hi, hf, hsc, _, _⟩ :=
    C4_folder_matcher_selection.2.1 "ab" [⟨"1", "ab"⟩] ⟨"1", "ab"⟩ (by decide)
  exact hsc

/-- **C7 counterexample**: when the folder-listing call fails,
`find_best_matching_folder` returns the ordinary value `None` (no match) to
its caller — it does not propagate the listing error. -/
theorem C7_counterexample :
    find_best_matching_folder (Except.error "listing API failure") "Panda Express"
      = Except.ok none := rfl

/-- **C7 amended**: `find_best_matching_folder` catches every listing error
inside its own `try/except` and returns normally; a failed listing yields
`None` (treated by the caller as "no match"), never a raised exception. -/
theorem C7_listing_error_handled_internally
    (listing : Except String (List DriveFolder)) (project_name : String) :
    ∃ v, find_best_matching_folder listing project_name = Except.ok v
      ∧ (∀ e, listing = Except.error e → v = none) := by
  cases listing with
  | error e => exact ⟨none, rfl, fun _ _ => rfl⟩
  | ok folders =>
    exact ⟨find_best_in_list folders project_name, rfl, fun e h => nomatch h⟩

/-- Witness for the amended C7 at a concrete failed listing. -/
theorem C7_witness :
    find_best_matching_folder (Except.error "boom") "Panda Express" = Except.ok none := by
  obtain ⟨v, hv, himp⟩ :=
    C7_listing_error_handled_internally (Except.error "boom") "Panda Express"
  rw [himp "boom" rfl] at hv
  exact hv

/-! ## `app/agent.py` — JSON values and `json.loads`

`json.loads` is modelled by a fuel-driven recursive-descent parser over the
JSON grammar CPython accepts by default (objects, arrays, strings with
escapes, numbers, `true`/`false`/`null`, plus the non-standard `NaN`,
`Infinity`, `-Infinity` constants; raw control characters are rejected as in
strict mode). Numbers keep their lexeme: only Python truthiness of the
parsed value is ever consumed by the code under verification. -/

/-- An opening curly bracket (kept out of string literals). -/
def lbrace : Char := Char.ofNat 123

/-- A closing curly bracket. -/
def rbrace : Char := Char.ofNat 125

/-- A parsed JSON value. -/
inductive JVal where
  | null
  | bool (b : Bool)
  | num (lexeme : String)
  | str (s : String)
  | arr (elems : List JVal)
  | obj (fields : List (String × JVal))

/-- Python truthiness of a parsed number lexeme: nonzero when the mantissa
has a nonzero digit, or for the non-finite constants (alphabetic lexemes). -/
def numLexNonzero (lexeme : String) : Bool :=
  let mantissa := lexeme.toList.takeWhile (fun c => c ≠ 'e' ∧ c ≠ 'E')
  mantissa.any (fun c => (c.isDigit && c ≠ '0') || c.isAlpha)

/-- Python truthiness (`bool(x)`) of a parsed JSON value. -/
def pyTruthy : JVal → Bool
  | JVal.null => false
  | JVal.bool b => b
  | JVal.num lx => numLexNonzero lx
  | JVal.str s => s != ""
  | JVal.arr l => !l.isEmpty
  | JVal.obj kvs => !kvs.isEmpty

/-- Python `dict.get(key, default)` over the parsed object fields; duplicate
JSON keys follow dict semantics (the last binding wins). -/
def objGetD (kvs : List (String × JVal)) (key : String) (dflt : JVal) : JVal :=
  match kvs.reverse.find? (fun kv => kv.1 == key) with
  | some kv => kv.2
  | none => dflt

/-- Python `d[key] = v`: replace the binding (position is irrelevant here,
only `objGetD` consumes the result). -/
def objSet (kvs : List (String × JVal)) (key : String) (v : JVal) :
    List (String × JVal) :=
  kvs.filter (fun kv => kv.1 != key) ++ [(key, v)]

/-- JSON whitespace accepted between tokens by `json.loads`. -/
def jWs (c : Char) : Bool :=
  c = ' ' || c = '\t' || c = '\n' || c = '\r'

/-- Value of a hexadecimal digit. -/
def hexVal (c : Char) : Option Nat :=
  if '0' ≤ c ∧ c ≤ '9' then some (c.toNat - 48)
  else if 'a' ≤ c ∧ c ≤ 'f' then some (c.toNat - 87)
  else if 'A' ≤ c ∧ c ≤ 'F' then some (c.toNat - 55)
  else none

/-- JSON string body lexer (after the opening quote): processes escapes,
rejects raw control characters, stops at the closing quote. Surrogate-pair
recombination of `\uXXXX` escapes is not modelled. -/
def jstrGo : Nat → List Char → List Char → Option (String × List Char)
  | 0, _, _ => none
  | fuel + 1, acc, cs =>
    match cs with
    | [] => none
    | c :: rest =>
      if c = '"' then some (String.mk acc.reverse, rest)
      else if c = '\\' then
        match rest with
        | [] => none
        | e :: rest2 =>
          if e = '"' then jstrGo fuel ('"' :: acc) rest2
          else if e = '\\' then jstrGo fuel ('\\' :: acc) rest2
          else if e = '/' then jstrGo fuel ('/' :: acc) rest2
          else if e = 'b' then jstrGo fuel (Char.ofNat 8 :: acc) rest2
          else if e = 'f' then jstrGo fuel (Char.ofNat 12 :: acc) rest2
          else if e = 'n' then jstrGo fuel ('\n' :: acc) rest2
          else if e = 'r' then jstrGo fuel ('\r' :: acc) rest2
          else if e = 't' then jstrGo fuel ('\t' :: acc) rest2
          else if e = 'u' then
            match rest2 with
            | h1 :: h2 :: h3 :: h4 :: rest3 =>
              match hexVal h1, hexVal h2, hexVal h3, hexVal h4 with
              | some a, some b, some c2, some d =>
                jstrGo fuel (Char.ofNat (((a * 16 + b) * 16 + c2) * 16 + d) :: acc) rest3
              | _, _, _, _ => none
            | _ => none
          else none
      else if c.toNat < 32 then none
      else jstrGo fuel (c :: acc) rest

/-- Longest digit run at the front of a character list. -/
def digitsTake (cs : List Char) : List Char × List Char :=
  (cs.takeWhile Char.isDigit, cs.dropWhile Char.isDigit)

/-- Lexer for the JSON number grammar
`-?(0|[1-9][0-9]*)(\.[0-9]+)?([eE][+-]?[0-9]+)?`; returns the lexeme and the
remaining input. -/
def parseNumberLex (cs : List Char) : Option (List Char × List Char) :=
  let signedTail : List Char × List Char :=
    match cs with
    | '-' :: r => (['-'], r)
    | _ => ([], cs)
  let neg := signedTail.1
  let cs1 := signedTail.2
  match cs1 with
  | c :: _ =>
    if c.isDigit then
      let ipartRest : List Char × List Char :=
        if c = '0' then ([c], cs1.drop 1) else digitsTake cs1
      let ipart := ipartRest.1
      let r1 := ipartRest.2
      let fpartRest : List Char × List Char :=
        match r1 with
        | '.' :: fr =>
          let ds := digitsTake fr
          if ds.1.isEmpty then ([], r1) else ('.' :: ds.1, ds.2)
        | _ => ([], r1)
      let fpart := fpartRest.1
      let r2 := fpartRest.2
      let epartRest : List Char × List Char :=
        match r2 with
        | e :: er =>
          if e = 'e' ∨ e = 'E' then
            let signRest : List Char × List Char :=
              match er with
              | s :: sr => if s = '+' ∨ s = '-' then ([s], sr) else ([], er)
              | [] => ([], er)
            let ds := digitsTake signRest.2
            if ds.1.isEmpty then ([], r2) else (e :: (signRest.1 ++ ds.1), ds.2)
          else ([], r2)
        | _ => ([], r2)
      some (neg ++ ipart ++ fpart ++ epartRest.1, epartRest.2)
    else none
  | [] => none

/-- Parser mode: a JSON value, the members of an object being read, or the
elements of an array being read. -/
inductive PMode where
  | value
  | objMembers (acc : List (String × JVal))
  | arrElems (acc : List JVal)

/-- Fuel-driven recursive-descent JSON parser. -/
def pgo (fuel : Nat) (mode : PMode) (cs0 : List Char) : Option (JVal × List Char) :=
  match fuel with
  | 0 => none
  | fuel + 1 =>
    match mode with
    | PMode.value =>
      let cs := cs0.dropWhile jWs
      match cs with
      | [] => none
      | c :: rest =>
        if c = lbrace then
          let r := rest.dropWhile jWs
          match r with
          | rb :: rr =>
            if rb = rbrace then some (JVal.obj [], rr)
            else pgo fuel (PMode.objMembers []) r
          | [] => none
        else if c = '[' then
          let r := rest.dropWhile jWs
          match r with
          | rb :: rr =>
            if rb = ']' then some (JVal.arr [], rr)
            else pgo fuel (PMode.arrElems []) r
          | [] => none
        else if c = '"' then
          match jstrGo (rest.length + 1) [] rest with
          | some (content, rr) => some (JVal.str content, rr)
          | none => none
        else if listStartsWith ['t', 'r', 'u', 'e'] cs then
          some (JVal.bool true, cs.drop 4)
        else if listStartsWith ['f', 'a', 'l', 's', 'e'] cs then
          some (JVal.bool false, cs.drop 5)
        else if listStartsWith ['n', 'u', 'l', 'l'] cs then
          some (JVal.null, cs.drop 4)
        else if listStartsWith ("NaN".toList) cs then
          some (JVal.num "NaN", cs.drop 3)
        else if listStartsWith ("Infinity".toList) cs then
          some (JVal.num "Infinity", cs.drop 8)
        else if listStartsWith ("-Infinity".toList) cs then
          some (JVal.num "-Infinity", cs.drop 9)
        else
          match parseNumberLex cs with
          | some (lex, rr) => some (JVal.num (String.mk lex), rr)
          | none => none
    | PMode.objMembers acc =>
      let cs := cs0.dropWhile jWs
      match cs with
      | c :: rest =>
        if c = '"' then
          match jstrGo (rest.length + 1) [] rest with
          | some (key, r1) =>
            match r1.dropWhile jWs with
            | ':' :: r3 =>
              match pgo fuel PMode.value r3 with
              | some (v, r4) =>
                match r4.dropWhile jWs with
                | ',' :: r6 => pgo fuel (PMode.objMembers (acc ++ [(key, v)])) r6
                | cb :: r6 =>
                  if cb = rbrace then some (JVal.obj (acc ++ [(key, v)]), r6)
                  else none
                | [] => none
              | none => none
            | _ => none
          | none => none
        else none
      | [] => none
    | PMode.arrElems acc =>
      match pgo fuel PMode.value cs0 with
      | some (v, r1) =>
        match r1.dropWhile jWs with
        | ',' :: r3 => pgo fuel (PMode.arrElems (acc ++ [v])) r3
        | ']' :: r3 => some (JVal.arr (acc ++ [v]), r3)
        | _ => none
      | none => none

/-- `json.loads`: parse a full JSON document, allowing surrounding
whitespace; `none` models a raised `JSONDecodeError`. -/
def json_loads (s : String) : Option JVal :=
  match pgo (s.toList.length + 1) PMode.value s.toList with
  | some (v, rest) => if (rest.dropWhile jWs).isEmpty then some v else none
  | none => none

/-! ## `app/agent.py` — `llm_json_with_retry` -/

/-- Index of the last occurrence of a character (`str.rfind`). -/
def lastIdxOf (c : Char) (cs : List Char) : Option Nat :=
  match cs.reverse.findIdx? (fun x => x = c) with
  | some k => some (cs.length - 1 - k)
  | none => none

/-- Stand-in for the `json.JSONDecodeError` message text; CPython formats a
positional message ("Expecting value: line 1 column 1 (char 0)", ...) whose
exact wording is irrelevant to the retry logic, which only embeds `str(e)`. -/
def jsonDecodeFailMsg : String := "Expecting value"

/-- One attempt's JSON extraction: locate the first `{` and the last `}` in
the model response, slice, and parse; `Except.error` models the raised
`ValueError`/`JSONDecodeError`. -/
def attemptExtract (response_text : String) : Except String JVal :=
  let cs := response_text.toList
  match cs.findIdx? (fun x => x = lbrace), lastIdxOf rbrace cs with
  | some s_, some e_ =>
    if e_ + 1 > s_ then
      match json_loads (String.mk ((cs.drop s_).take (e_ + 1 - s_))) with
      | some v => Except.ok v
      | none => Except.error jsonDecodeFailMsg
    else Except.error "No JSON found in response"
  | _, _ => Except.error "No JSON found in response"

/-- The suffix appended to the working prompt after a failed attempt. -/
def errorSuffix (e : String) : String :=
  "\n\nPrevious attempt failed with error: " ++ e
    ++ "\nPlease respond with ONLY valid JSON, nothing else."

/-- The retry loop of `llm_json_with_retry`: `fuel` counts the remaining
attempts (initially `max_retries`); alongside the outcome it records the
prompt submitted to the model at each attempt. -/
def retryGo (llm : String → String) (total : Nat) :
    Nat → String → List String × Except String JVal
  | 0, _ => ([], Except.error "Unexpected error in JSON retry mechanism")
  | fuel + 1, working_prompt =>
    match attemptExtract (llm working_prompt) with
    | Except.ok v => ([working_prompt], Except.ok v)
    | Except.error e =>
      if fuel = 0 then
        ([working_prompt],
          Except.error ("JSON parsing failed after " ++ toString total
            ++ " attempts: " ++ e))
      else
        let r := retryGo llm total fuel (working_prompt ++ errorSuffix e)
        (working_prompt :: r.1, r.2)

/-- `llm_json_with_retry` with the model call as an oracle
`llm : String → String`; returns the prompt trace (for specification) and
the outcome (`Except.error` models the raised `ValueError`). -/
def llm_json_with_retry (llm : String → String) (prompt : String)
    (max_retries : Nat := 3) : List String × Except String JVal :=
  retryGo llm max_retries max_retries prompt

/-! ## `app/agent.py` — `email_analysis_node`

The AgentMail thread fetch is an oracle `Except String EmailThread`
(`Except.error` is the exception the source catches at lines 202-209), and
the LLM is the same oracle `String → String` consumed by
`llm_json_with_retry`. Missing `thread_id`/`inbox_id` are modelled as empty
strings, matching the `if not thread_id` truthiness checks. -/

/-- An attachment of a thread message (`filename` is already the result of
`getattr(att, 'filename', '') or ''`). -/
structure PyAttachment where
  attachment_id : String
  filename : String
deriving Repr, DecidableEq

/-- One message of a fetched thread. -/
structure ThreadMsg where
  from_ : String
  subject : String
  text : String
  timestamp : String
  message_id : String
  attachments : List PyAttachment
deriving Repr, DecidableEq

/-- A fetched AgentMail thread. -/
structure EmailThread where
  messages : List ThreadMsg
deriving Repr, DecidableEq

/-- The webhook `message_data` fields the node reads (`.get(..., '')`
defaults, with `""` standing for a missing/None `thread_id`/`inbox_id`). -/
structure MessageData where
  from_ : String
  subject : String
  text : String
  thread_id : String
  inbox_id : String
deriving Repr, DecidableEq

/-- Python `s.endswith(suffixStr)`. -/
def strEndsWith (s suffixStr : String) : Bool :=
  listStartsWith suffixStr.toList.reverse s.toList.reverse

/-- `filename and filename.lower().endswith(('.pdf', '.docx', '.doc'))`. -/
def isEligibleFilename (filename : String) : Bool :=
  filename != ""
    && (strEndsWith (pyLower filename) ".pdf"
        || strEndsWith (pyLower filename) ".docx"
        || strEndsWith (pyLower filename) ".doc")

/-- The `all_thread_attachments` list collected by the node:
`(filename, message_id, from)` of every eligible attachment of every
message, in thread order. -/
def eligibleAttachmentsOf (thread : EmailThread) : List (String × String × String) :=
  thread.messages.flatMap (fun msg =>
    (msg.attachments.filter (fun att => isEligibleFilename att.filename)).map
      (fun att => (att.filename, msg.message_id, msg.from_)))

/-- Python `sep.join(parts)`. -/
def joinWithSep (sep : String) : List String → String
  | [] => ""
  | [x] => x
  | x :: xs => x ++ sep ++ joinWithSep sep xs

/-- Python `s[:n]` on character counts. -/
def pySlice (n : Nat) (s : String) : String :=
  String.mk (s.toList.take n)

/-- The `thread_context` block: the first five collected messages, each
formatted with 500-character-truncated content and its attachment names. -/
def threadContextOf (msgs : List ThreadMsg) : String :=
  joinWithSep "\n\n" ((msgs.take 5).map (fun msg =>
    "Message from " ++ msg.from_ ++ " at " ++ msg.timestamp ++ ":\n"
      ++ "Subject: " ++ msg.subject ++ "\n"
      ++ "Content: " ++ (if msg.text != "" then pySlice 500 msg.text else "") ++ "\n"
      ++ "Attachments: "
      ++ (if msg.attachments.isEmpty then "None"
          else joinWithSep ", " (msg.attachments.map (fun a => a.filename)))))

/-- The `attachment_list` block over the eligible attachments. -/
def attachmentListOf (atts : List (String × String × String)) : String :=
  joinWithSep "\n" (atts.map (fun att =>
    "  - " ++ att.1 ++ " (from " ++ att.2.2 ++ ")"))

/-- The single-message fallback used when the thread context is empty. -/
def singleMessageFallback (md : MessageData) : String :=
  "Single message:\n- From: " ++ md.from_ ++ "\n- Subject: " ++ md.subject
    ++ "\n- Content: " ++ (if md.text != "" then pySlice 1000 md.text else "No content")

/-- The classification prompt f-string, line by line. -/
def promptLines (ctxBlock attBlock bidLine : String) : List String := [
  "You are a general contractor" ++ apos
    ++ "s assistant sorting emails from subcontractors bidding on construction projects.",
  "",
  "    CLASSIFICATION RULES - You must classify emails into TWO categories:",
  "",
  "    1. BID PROPOSAL INCLUDED (bid_proposal_included):",
  "       - True ONLY if:",
  "         * There is atleast one PDF/DOCX attachment in the thread ",
  "         * There is some indication of the attachment being a bid proposal",
  "       - False if:",
  "         * No attachments in thread",
  "         * \"Proposal Submitted\" without attachment (submitted elsewhere)",
  "         * Attachments are images, signatures, or non-bid documents",
  "",
  "    2. SHOULD FORWARD (should_forward):",
  "       - True if email is:",
  "         * A clarifying question from a subcontractor about project details",
  "         * High-impact communication from subcontractor that admin should see",
  "         * Request for information or clarification about bidding",
  "",
  "       - False if email is:",
  "         * Generic automated notifications from BuildingConnected/PlanHub",
  "         * Simple \"Bid Submitted\" confirmations (no question or issue)",
  "         * Marketing emails, spam, or newsletters",
  "         * Welcome/signup emails",
  "         * System-generated status updates with no action needed",
  "",
  "    ENTIRE EMAIL THREAD CONTEXT:",
  "    " ++ ctxBlock,
  "",
  "    ALL ATTACHMENTS IN THREAD (PDF/DOCX):",
  "    " ++ attBlock,
  "",
  "    Analyze this email thread and classify it.",
  "",
  "    Respond with ONLY this JSON format:",
  "    " ++ String.singleton lbrace,
  "        \"bid_proposal_included\": " ++ bidLine ++ ",",
  "        \"should_forward\": true or false",
  "    " ++ String.singleton rbrace
]

/-- The full prompt `email_analysis_node` builds from the message data and
the fetched thread. -/
def classificationPrompt (md : MessageData) (thread : EmailThread) : String :=
  let thread_context := threadContextOf thread.messages
  let atts := eligibleAttachmentsOf thread
  let has_attachment := !atts.isEmpty
  let ctxBlock :=
    if thread_context != "" then thread_context else singleMessageFallback md
  let attBlock :=
    if has_attachment then attachmentListOf atts
    else "No PDF/DOCX attachments found in thread"
  let bidLine :=
    if has_attachment then "true (ONLY if has_attachment is True)"
    else "false (MUST be false - no attachment in thread)"
  joinWithSep "\n" (promptLines ctxBlock attBlock bidLine)

/-- The dict `email_analysis_node` returns into the workflow state (the
`error` key is present only on the failure paths). -/
structure EmailAnalysisResult where
  bid_proposal_included : JVal
  should_forward : JVal
  error : Option String

/-- `email_analysis_node`: validate `thread_id`/`inbox_id` (raising
`ValueError`, modelled as `Except.error`, when absent), fetch the thread
(fetch failure yields the safe default with an `error` annotation), build
the prompt, run the retrying classifier, force `bid_proposal_included` to
`False` when the thread has no eligible attachment, and downgrade any
classifier exception to the safe default. -/
def email_analysis_node (md : MessageData) (fetchThread : Except String EmailThread)
    (llm : String → String) : Except String EmailAnalysisResult :=
  if md.thread_id = "" then Except.error "thread_id is required in message_data"
  else if md.inbox_id = "" then Except.error "inbox_id is required in message_data"
  else
    match fetchThread with
    | Except.error e =>
      Except.ok ⟨JVal.bool false, JVal.bool false,
        some ("Failed to fetch email thread: " ++ e)⟩
    | Except.ok thread =>
      let has_attachment := !(eligibleAttachmentsOf thread).isEmpty
      match (llm_json_with_retry llm (classificationPrompt md thread) 3).2 with
      | Except.error e =>
        Except.ok ⟨JVal.bool false, JVal.bool false,
          some ("Error analyzing email: " ++ e)⟩
      | Except.ok v =>
        match v with
        | JVal.obj kvs =>
          let kvs2 :=
            if has_attachment then kvs
            else objSet kvs "bid_proposal_included" (JVal.bool false)
          Except.ok ⟨objGetD kvs2 "bid_proposal_included" (JVal.bool false),
            objGetD kvs2 "should_forward" (JVal.bool false), none⟩
        | _ =>
          -- unreachable in fact (a parsed slice starting with a brace is an
          -- object); in Python the item assignment / `.get` on a non-dict
          -- raises inside the same `try` and lands in the `except` branch
          Except.ok ⟨JVal.bool false, JVal.bool false,
            some ("Error analyzing email: "
              ++ "classifier returned a non-object JSON value")⟩

/-! ## `app/agent.py` — `route_after_analysis` -/

/-- LangGraph's terminal pseudo-node `END`. -/
def END_NODE : String := "__end__"

/-- The two state keys `route_after_analysis` reads with `state.get(...)`
(`none` models an absent key). -/
structure RouteState where
  bid_proposal_included : Option JVal
  should_forward : Option JVal

/-- Python truthiness of `state.get(key)` (absent key → `None` → falsy). -/
def pyTruthyOpt : Option JVal → Bool
  | none => false
  | some v => pyTruthy v

/-- `route_after_analysis`: bid proposal wins over forwarding, else end. -/
def route_after_analysis (st : RouteState) : String :=
  if pyTruthyOpt st.bid_proposal_included then "analyze_attachment"
  else if pyTruthyOpt st.should_forward then "forward_email"
  else END_NODE

/-- Overriding a key and reading it back yields the written value. -/
theorem objGetD_objSet (kvs : List (String × JVal)) (k : String) (v d : JVal) :
    objGetD (objSet kvs k v) k d = v := by
  rw [objGetD, objSet, List.reverse_append]
  simp only [List.reverse_cons, List.reverse_nil, List.nil_append,
    List.singleton_append]
  have hfind : List.find? (fun kv : String × JVal => kv.1 == k)
      ((k, v) :: (List.filter (fun kv => kv.1 != k) kvs).reverse) = some (k, v) := by
    rw [List.find?_cons]
    simp
  rw [hfind]

/-- **C1**: whatever JSON the classifier model produced, if
`email_analysis_node` returns a result whose `bid_proposal_included` is
truthy then the fetched thread holds at least one eligible
(`.pdf`/`.docx`/`.doc`) attachment; equivalently, with no eligible
attachment the node forces `bid_proposal_included` to `False`. -/
theorem C1_attachment_gating (md : MessageData)
    (fetchThread : Except String EmailThread) (llm : String → String)
    (r : EmailAnalysisResult)
    (h : email_analysis_node md fetchThread llm = Except.ok r)
    (hb : pyTruthy r.bid_proposal_included = true) :
    ∃ thread, fetchThread = Except.ok thread
      ∧ eligibleAttachmentsOf thread ≠ [] := by
  rw [email_analysis_node.eq_def] at h
  by_cases h1 : md.thread_id = ""
  · rw [if_pos h1] at h; exact absurd h (by simp)
  · rw [if_neg h1] at h
    by_cases h2 : md.inbox_id = ""
    · rw [if_pos h2] at h; exact absurd h (by simp)
    · rw [if_neg h2] at h
      cases hft : fetchThread with
      | error e =>
        rw [hft] at h
        simp only [] at h
        have hr := Except.ok.inj h
        rw [← hr] at hb
        simp [pyTruthy] at hb
      | ok thread =>
        rw [hft] at h
        simp only [] at h
        by_cases hatt : (eligibleAttachmentsOf thread).isEmpty
        · exfalso
          simp only [hatt] at h
          cases hout : (llm_json_with_retry llm (classificationPrompt md thread) 3).2 with
          | error e =>
            rw [hout] at h
            have hr := Except.ok.inj h
            rw [← hr] at hb
            simp [pyTruthy] at hb
          | ok v =>
            rw [hout] at h
            cases v with
            | obj kvs =>
              have hr := Except.ok.inj h
              rw [← hr] at hb
              simp [objGetD_objSet, pyTruthy] at hb
            | null =>
              have hr := Except.ok.inj h
              rw [← hr] at hb
              simp [pyTruthy] at hb
            | bool b =>
              have hr := Except.ok.inj h
              rw [← hr] at hb
              simp [pyTruthy] at hb
            | num lx =>
              have hr := Except.ok.inj h
              rw [← hr] at hb
              simp [pyTruthy] at hb
            | str s =>
              have hr := Except.ok.inj h
              rw [← hr] at hb
              simp [pyTruthy] at hb
            | arr l =>
              have hr := Except.ok.inj h
              rw [← hr] at hb
              simp [pyTruthy] at hb
        · exact ⟨thread, rfl, fun hnil => hatt (by simp [hnil])⟩

/-- A thread carrying one eligible `.pdf` attachment, for the C1 witness. -/
def c1ExampleThread : EmailThread :=
  ⟨[⟨"sub@x.com", "Bid", "see attached", "2024-01-01", "m1",
      [⟨"a1", "bid.pdf"⟩]⟩]⟩

/-- Message data with both identifiers present, for the C1 witness. -/
def c1ExampleMd : MessageData :=
  ⟨"sub@x.com", "Bid", "see attached", "t1", "i1"⟩

/-- A classifier stub that answers with a well-formed JSON object. -/
def c1ExampleLlm : String → String :=
  fun _ => String.singleton lbrace ++ "\"bid_proposal_included\": true"
    ++ String.singleton rbrace

/-- Witness for C1: on the example inputs the node reports a truthy
`bid_proposal_included`, and the theorem recovers the eligible attachment. -/
theorem C1_witness :
    ∃ thread, (Except.ok c1ExampleThread : Except String EmailThread) = Except.ok thread
      ∧ eligibleAttachmentsOf thread ≠ [] :=
  C1_attachment_gating c1ExampleMd (Except.ok c1ExampleThread) c1ExampleLlm
    ⟨JVal.bool true, JVal.bool false, none⟩ (by rfl) (by rfl)

/-- **C2**: after email analysis the router sends the state to attachment
analysis whenever `bid_proposal_included` is truthy (even if
`should_forward` is also set), to `forward_email` when only
`should_forward` is truthy, and to the terminal `END` when both are falsy —
in that priority order. -/
theorem C2_routing_priority :
    (∀ st : RouteState, pyTruthyOpt st.bid_proposal_included = true →
      route_after_analysis st = "analyze_attachment")
    ∧ (∀ st : RouteState, pyTruthyOpt st.bid_proposal_included = false →
      pyTruthyOpt st.should_forward = true →
      route_after_analysis st = "forward_email")
    ∧ (∀ st : RouteState, pyTruthyOpt st.bid_proposal_included = false →
      pyTruthyOpt st.should_forward = false →
      route_after_analysis st = END_NODE) := by
  refine ⟨?_, ?_, ?_⟩
  · intro st h1
    rw [route_after_analysis, if_pos h1]
  · intro st h1 h2
    rw [route_after_analysis, if_neg (by simp [h1]), if_pos h2]
  · intro st h1 h2
    rw [route_after_analysis, if_neg (by simp [h1]), if_neg (by simp [h2])]

/-- Witness for C2 at the contested double-flag state: both flags truthy
still routes to attachment analysis. -/
theorem C2_witness :
    route_after_analysis ⟨some (JVal.bool true), some (JVal.bool true)⟩
      = "analyze_attachment" :=
  C2_routing_priority.1 ⟨some (JVal.bool true), some (JVal.bool true)⟩ rfl

/-- Appending the retry suffix strictly lengthens the prompt. -/
theorem length_lt_append_errorSuffix (a e : String) :
    a.length < (a ++ errorSuffix e).length := by
  rw [String.length_append]
  have h : 0 < (errorSuffix e).length := by
    rw [errorSuffix, String.length_append, String.length_append]
    have h0 : (0:Nat) < "\n\nPrevious attempt failed with error: ".length := by decide
    omega
  omega

/-- Consecutive prompts of a retry trace: each later prompt extends the
previous one by the suffix describing that attempt's failure. -/
def promptChain (llm : String → String) : List String → Prop
  | [] => True
  | [_] => True
  | a :: b :: rest =>
    (∃ e, attemptExtract (llm a) = Except.error e ∧ b = a ++ errorSuffix e
      ∧ a.length < b.length)
    ∧ promptChain llm (b :: rest)

/-- **C5**: with the default three attempts, the retry helper's prompt trace
starts at the caller's prompt and grows strictly at each retry by a suffix
embedding the prior failure text; it succeeds exactly when the brace-delimited
slice of the current response parses (the last traced attempt), and after
exhausting all three attempts it raises the terminal
`"JSON parsing failed after 3 attempts"` error. -/
theorem C5_retry_growing_prompt (llm : String → String) (p : String) :
    ((llm_json_with_retry llm p 3).1.head? = some p
      ∧ 1 ≤ (llm_json_with_retry llm p 3).1.length
      ∧ (llm_json_with_retry llm p 3).1.length ≤ 3
      ∧ promptChain llm (llm_json_with_retry llm p 3).1)
    ∧ (∀ v, (llm_json_with_retry llm p 3).2 = Except.ok v →
        ∃ lp, (llm_json_with_retry llm p 3).1.getLast? = some lp
          ∧ attemptExtract (llm lp) = Except.ok v)
    ∧ (∀ e, (llm_json_with_retry llm p 3).2 = Except.error e →
        (llm_json_with_retry llm p 3).1.length = 3
        ∧ ∃ lp e0, (llm_json_with_retry llm p 3).1.getLast? = some lp
            ∧ attemptExtract (llm lp) = Except.error e0
            ∧ e = "JSON parsing failed after 3 attempts: " ++ e0) := by
  cases h1 : attemptExtract (llm p) with
  | ok v1 =>
    have ht : llm_json_with_retry llm p 3 = ([p], Except.ok v1) := by
      simp [llm_json_with_retry, retryGo, h1]
    rw [ht]
    refine ⟨⟨rfl, by simp, by simp, by simp [promptChain]⟩, ?_, ?_⟩
    · intro v hv
      exact ⟨p, rfl, by rw [h1, Except.ok.inj hv]⟩
    · intro e he; exact absurd he (by simp)
  | error e1 =>
    cases h2 : attemptExtract (llm (p ++ errorSuffix e1)) with
    | ok v2 =>
      have ht : llm_json_with_retry llm p 3
          = ([p, p ++ errorSuffix e1], Except.ok v2) := by
        simp [llm_json_with_retry, retryGo, h1, h2]
      rw [ht]
      refine ⟨⟨rfl, by simp, by simp, ?_⟩, ?_, ?_⟩
      · exact ⟨⟨e1, h1, rfl, length_lt_append_errorSuffix p e1⟩, trivial⟩
      · intro v hv
        exact ⟨p ++ errorSuffix e1, rfl, by rw [h2, Except.ok.inj hv]⟩
      · intro e he; exact absurd he (by simp)
    | error e2 =>
      cases h3 : attemptExtract (llm (p ++ errorSuffix e1 ++ errorSuffix e2)) with
      | ok v3 =>
        have ht : llm_json_with_retry llm p 3
            = ([p, p ++ errorSuffix e1, p ++ errorSuffix e1 ++ errorSuffix e2],
                Except.ok v3) := by
          simp [llm_json_with_retry, retryGo, h1, h2, h3]
        rw [ht]
        refine ⟨⟨rfl, by simp, by simp, ?_⟩, ?_, ?_⟩
        · exact ⟨⟨e1, h1, rfl, length_lt_append_errorSuffix p e1⟩,
            ⟨e2, h2, rfl, length_lt_append_errorSuffix _ e2⟩, trivial⟩
        · intro v hv
          exact ⟨p ++ errorSuffix e1 ++ errorSuffix e2, rfl,
            by rw [h3, Except.ok.inj hv]⟩
        · intro e he; exact absurd he (by simp)
      | error e3 =>
        have ht : llm_json_with_retry llm p 3
            = ([p, p ++ errorSuffix e1, p ++ errorSuffix e1 ++ errorSuffix e2],
                Except.error ("JSON parsing failed after 3 attempts: " ++ e3)) := by
          have hstr : ("JSON parsing failed after " ++ toString (3:Nat)
              ++ " attempts: " : String) = "JSON parsing failed after 3 attempts: " := rfl
          simp [llm_json_with_retry, retryGo, h1, h2, h3, hstr]
        rw [ht]
        refine ⟨⟨rfl, by simp, by simp, ?_⟩, ?_, ?_⟩
        · exact ⟨⟨e1, h1, rfl, length_lt_append_errorSuffix p e1⟩,
            ⟨e2, h2, rfl, length_lt_append_errorSuffix _ e2⟩, trivial⟩
        · intro v hv; exact absurd hv (by simp)
        · intro e he
          refine ⟨by simp, p ++ errorSuffix e1 ++ errorSuffix e2, e3, rfl, h3, ?_⟩
          have := Except.error.inj he
          exact this.symm

/-- A model stub that never produces JSON, for the C5 witness. -/
def c5BadLlm : String → String := fun _ => "no braces here"

/-- Witness for C5: a stub that never returns JSON exhausts exactly three
attempts (three traced prompts). -/
theorem C5_witness :
    (llm_json_with_retry c5BadLlm "classify this email" 3).1.length = 3 := by
  have h := (C5_retry_growing_prompt c5BadLlm "classify this email").2.2
  exact (h ("JSON parsing failed after 3 attempts: " ++ "No JSON found in response")
    (by rfl)).1

/-- **C6 counterexample**: on a message with a missing `thread_id` (and any
fetch/classifier behaviour) `email_analysis_node` raises `ValueError`
instead of returning the safe default — contradicting the claim that the
node never raises for every input. -/
theorem C6_counterexample :
    email_analysis_node ⟨"sub@x.com", "Hello", "body", "", "inbox-1"⟩
      (Except.ok ⟨[]⟩) (fun _ => "")
      = Except.error "thread_id is required in message_data" := rfl

/-- **C6 amended**: once `thread_id` and `inbox_id` are present the node
never raises: it always returns a result; a failed thread fetch yields
`{bid_proposal_included: false, should_forward: false}` with a fetch-error
annotation, and a classifier failure yields the same safe default with an
analysis-error annotation. (With either identifier missing the node raises
`ValueError`, per the counterexample.) -/
theorem C6_node_safe_when_ids_present (md : MessageData)
    (fetchThread : Except String EmailThread) (llm : String → String)
    (ht : md.thread_id ≠ "") (hi : md.inbox_id ≠ "") :
    (∃ r, email_analysis_node md fetchThread llm = Except.ok r)
    ∧ (∀ e, fetchThread = Except.error e →
        email_analysis_node md fetchThread llm
          = Except.ok ⟨JVal.bool false, JVal.bool false,
              some ("Failed to fetch email thread: " ++ e)⟩)
    ∧ (∀ thread e, fetchThread = Except.ok thread →
        (llm_json_with_retry llm (classificationPrompt md thread) 3).2
          = Except.error e →
        email_analysis_node md fetchThread llm
          = Except.ok ⟨JVal.bool false, JVal.bool false,
              some ("Error analyzing email: " ++ e)⟩) := by
  refine ⟨?_, ?_, ?_⟩
  · rw [email_analysis_node.eq_def, if_neg ht, if_neg hi]
    cases fetchThread with
    | error e => exact ⟨_, rfl⟩
    | ok thread =>
      simp only []
      cases hout : (llm_json_with_retry llm (classificationPrompt md thread) 3).2 with
      | error e => exact ⟨_, rfl⟩
      | ok v => cases v <;> exact ⟨_, rfl⟩
  · intro e hfe
    rw [email_analysis_node.eq_def, if_neg ht, if_neg hi, hfe]
  · intro thread e hfo hclass
    rw [email_analysis_node.eq_def, if_neg ht, if_neg hi, hfo]
    simp only [hclass]

/-- Witness for the amended C6: with identifiers present and a failing
fetch, the node returns the safe default with the fetch error recorded. -/
theorem C6_witness :
    email_analysis_node ⟨"sub@x.com", "Hello", "body", "t1", "i1"⟩
      (Except.error "boom") (fun _ => "")
      = Except.ok ⟨JVal.bool false, JVal.bool false,
          some ("Failed to fetch email thread: " ++ "boom")⟩ :=
  (C6_node_safe_when_ids_present ⟨"sub@x.com", "Hello", "body", "t1", "i1"⟩
    (Except.error "boom") (fun _ => "") (by decide) (by decide)).2.1 "boom" rfl

/-! ## `app/utils/google_drive.py` — upload renaming
(`upload_attachment_to_drive`, lines 516-526) -/

/-- The extension part of `os.path.splitext`: the suffix from the last dot
of the basename, unless every basename character before that dot is itself a
dot. -/
def splitextExt (p : String) : String :=
  let cs := p.toList
  let base := (cs.reverse.takeWhile (fun c => c ≠ '/')).reverse
  match lastIdxOf '.' base with
  | none => ""
  | some di =>
    if (base.take di).any (fun c => c ≠ '.') then String.mk (base.drop di) else ""

/-- Python `s.replace(old, new)` for one-character patterns. -/
def replaceChar (old new : Char) (s : String) : String :=
  String.mk (s.toList.map (fun c => if c = old then new else c))

/-- The component cleanup of the upload renaming:
`.replace('/', '-').replace('\\', '-').replace(':', '-').strip()`. -/
def cleanComponent (raw : String) : String :=
  pyStrip (replaceChar ':' '-' (replaceChar '\\' '-' (replaceChar '/' '-' raw)))

/-- Python `s or "unknown"` over strings (with `""` also standing for a
`None` argument). -/
def orUnknown (s : String) : String :=
  if s = "" then "unknown" else s

/-- Extension selection of the upload renaming: default to `.pdf` when the
original extension is absent or not an eligible document extension. -/
def chooseUploadExt (original_filename : String) : String :=
  let extension := splitextExt original_filename
  if extension = "" ∨ ¬([".pdf", ".docx", ".doc"].contains (pyLower extension))
  then ".pdf" else extension

/-- The deterministic renaming `{trade}_{company}{ext}` performed by
`upload_attachment_to_drive` before the upload. -/
def upload_drive_filename (original_filename company_name trade : String) : String :=
  let clean_company := cleanComponent (orUnknown company_name)
  let clean_trade := cleanComponent (orUnknown trade)
  clean_trade ++ "_" ++ clean_company ++ chooseUploadExt original_filename

/-- **C10**: an empty (or missing) `company_name` or `trade` does not make
the renaming fail — the missing component becomes the literal `"unknown"`
(sanitization of `/ \ :` applies, vacuously, to it), so the upload proceeds
under names such as `"Plumbing_unknown.pdf"` and `"unknown_Acme.pdf"`. -/
theorem C10_unknown_component_fallback :
    (∀ original trade : String,
      upload_drive_filename original "" trade
        = cleanComponent (orUnknown trade) ++ "_" ++ "unknown"
            ++ chooseUploadExt original)
    ∧ (∀ original company : String,
      upload_drive_filename original company ""
        = "unknown" ++ "_" ++ cleanComponent (orUnknown company)
            ++ chooseUploadExt original)
    ∧ upload_drive_filename "bid.pdf" "" "Plumbing" = "Plumbing_unknown.pdf"
    ∧ upload_drive_filename "bid.pdf" "Acme" "" = "unknown_Acme.pdf" := by
  have hu : cleanComponent (orUnknown "") = "unknown" := rfl
  refine ⟨?_, ?_, rfl, rfl⟩
  · intro original trade
    rw [upload_drive_filename, hu]
  · intro original company
    rw [upload_drive_filename, hu]

end BidBuddy

